import Mathlib

/-!
Verification of the tagged-error variant factory (src/index.ts).

The whole library is one factory.  `TaggedError(tag)` returns a class
`TaggedErrorClass extends Error` whose constructor, for an optional
`args : Record<string, any>`:

1. calls `super()` (the host `Error` constructor with no message);
2. runs the class-field initializer `readonly _tag = tag` (TypeScript
   `readonly` is erased at runtime: the field is created as an ordinary
   writable own data property, and this happens right after `super()`
   returns, before the constructor body);
3. executes `this.name = tag`;
4. if `args` is present, executes `Object.assign(this, args)`, copying
   every key of `args` onto the instance through the ordinary `[[Set]]`
   path, in key order, with no filtering or guard;
5. executes `Object.setPrototypeOf(this, TaggedErrorClass.prototype)`.

The embedding models the produced runtime object: its own data
properties together with their `writable` attribute, its prototype
chain (`Error.prototype`, the prototype of each class minted by a
factory call, and optionally the prototype of a user-written subclass),
the strict-mode property-assignment path with its genuine failure
conditions, property lookup through the prototype chain, and
`instanceof`.  The implementation-defined `stack` own property that
some hosts install is not modelled.  Each evaluation of the `class`
expression inside the factory allocates a fresh class object; the
embedding makes that allocation explicit as a numeric id.
-/

/-- Runtime values stored in properties: strings, numbers, booleans, or
an opaque reference to some other heap object.  Payload values are
passed through unmodified (never cloned), so a reference stays the same
reference. -/
inductive JSValue where
  | vStr : String → JSValue
  | vNum : Int → JSValue
  | vBool : Bool → JSValue
  | vRef : Nat → JSValue
  deriving DecidableEq, Repr

/-- Identity of a prototype object in the chains this library can
build: `Error.prototype`; the prototype of the class minted by one
factory call (keyed by that call's allocation id); or the prototype of
a user-written subclass `class C extends TaggedError(tag) ...` (keyed
by its own allocation id and the id of the factory class it extends). -/
inductive ProtoId where
  | errorProto : ProtoId
  | classProto : Nat → ProtoId
  | subProto : Nat → Nat → ProtoId
  deriving DecidableEq, Repr

/-- The prototype chain starting at (and including) a prototype object:
a factory-made class prototype has `Error.prototype` as its parent, a
subclass prototype has its factory class prototype as parent. -/
def chainOf : ProtoId → List ProtoId
  | .errorProto => [.errorProto]
  | .classProto n => [.classProto n, .errorProto]
  | .subProto s c => [.subProto s c, .classProto c, .errorProto]

/-- One own data property of an object: key, stored value, and the
`writable` attribute (the only attribute the claims depend on). -/
structure JSProp where
  key : String
  val : JSValue
  writable : Bool
  deriving DecidableEq, Repr

/-- A runtime error value: its own data properties in insertion order,
its current `[[Prototype]]`, and its extensibility flag. -/
structure ErrorValue where
  props : List JSProp
  proto : ProtoId
  extensible : Bool
  deriving DecidableEq, Repr

/-- Ordinary `[[Set]]` on a property list: update the stored value of
an existing own data property in place (keys are unique, so the first
match is the match), or append a fresh writable property. -/
def setProps : List JSProp → String → JSValue → List JSProp
  | [], k, v => [⟨k, v, true⟩]
  | p :: ps, k, v =>
    if p.key = k then { p with val := v } :: ps
    else p :: setProps ps k v

/-- Checked strict-mode `[[Set]]`: assigning to a non-writable own data
property throws a `TypeError`, and creating a property on a
non-extensible object throws a `TypeError`. -/
def setPropsE (ext : Bool) : List JSProp → String → JSValue → Except String (List JSProp)
  | [], k, v =>
    if ext then .ok [⟨k, v, true⟩]
    else .error "TypeError: cannot add property, object is not extensible"
  | p :: ps, k, v =>
    if p.key = k then
      if p.writable then .ok ({ p with val := v } :: ps)
      else .error "TypeError: cannot assign to read only property"
    else do
      let ps2 ← setPropsE ext ps k v
      .ok (p :: ps2)

/-- `CreateDataProperty` as used by a class-field initializer: define an
own data property with `writable: true` (redefining any existing one). -/
def defineProps : List JSProp → String → JSValue → List JSProp
  | [], k, v => [⟨k, v, true⟩]
  | p :: ps, k, v =>
    if p.key = k then ⟨k, v, true⟩ :: ps
    else p :: defineProps ps k v

/-- Property assignment `e.k = v` on an error value (unchecked result). -/
def setField (e : ErrorValue) (k : String) (v : JSValue) : ErrorValue :=
  { e with props := setProps e.props k v }

/-- Property assignment `e.k = v` on an error value, strict-mode
checked: this is the standard field-assignment path. -/
def setFieldE (e : ErrorValue) (k : String) (v : JSValue) : Except String ErrorValue := do
  let ps ← setPropsE e.extensible e.props k v
  .ok { e with props := ps }

/-- Class-field definition on an error value (checked: fails only on a
non-extensible object with no such own property yet). -/
def defineFieldE (e : ErrorValue) (k : String) (v : JSValue) : Except String ErrorValue :=
  if e.props.any (fun p => p.key = k) ∨ e.extensible then
    .ok { e with props := defineProps e.props k v }
  else .error "TypeError: cannot define property, object is not extensible"

/-- Class-field definition, unchecked result. -/
def defineField (e : ErrorValue) (k : String) (v : JSValue) : ErrorValue :=
  { e with props := defineProps e.props k v }

/-- `Object.assign(e, m)`: copy every key of the source record onto the
target through `[[Set]]`, in key order (checked). -/
def objectAssignE (e : ErrorValue) (m : List (String × JSValue)) : Except String ErrorValue :=
  m.foldlM (fun acc kv => setFieldE acc kv.1 kv.2) e

/-- `Object.assign(e, m)`, unchecked result. -/
def objectAssign (e : ErrorValue) (m : List (String × JSValue)) : ErrorValue :=
  m.foldl (fun acc kv => setField acc kv.1 kv.2) e

/-- `Object.setPrototypeOf(e, p)`: succeeds when the prototype is
unchanged or the object is extensible, otherwise throws. -/
def setPrototypeOfE (e : ErrorValue) (p : ProtoId) : Except String ErrorValue :=
  if e.proto = p then .ok e
  else if e.extensible then .ok { e with proto := p }
  else .error "TypeError: cannot set prototype, object is not extensible"

/-- The object produced by `super()` — the host `Error` constructor
invoked with no message: an extensible ordinary object with no own
properties (in particular no own `message`) whose `[[Prototype]]` is
`new.target.prototype`. -/
def errorSuper (newTargetProto : ProtoId) : ErrorValue :=
  { props := [], proto := newTargetProto, extensible := true }

/-- The `TaggedErrorClass` constructor body, step by step, in the
checked strict-mode semantics.  `tag` is the captured label, `cid` the
allocation id of the class created by this factory call (so
`ProtoId.classProto cid` is `TaggedErrorClass.prototype`), and
`newTargetProto` is `new.target.prototype` — the class's own prototype
for a direct `new`, the subclass prototype when a subclass is
instantiated. -/
def constructE (tag : String) (cid : Nat) (newTargetProto : ProtoId)
    (args : Option (List (String × JSValue))) : Except String ErrorValue := do
  let e0 := errorSuper newTargetProto
  let e1 ← defineFieldE e0 "_tag" (JSValue.vStr tag)
  let e2 ← setFieldE e1 "name" (JSValue.vStr tag)
  let e3 ← match args with
    | some m => objectAssignE e2 m
    | none => pure e2
  setPrototypeOfE e3 (ProtoId.classProto cid)

/-- The value the constructor produces (unchecked form of
`constructE`; the two agree, see `constructE_eq_construct`). -/
def construct (tag : String) (cid : Nat) (newTargetProto : ProtoId)
    (args : Option (List (String × JSValue))) : ErrorValue :=
  let e0 := errorSuper newTargetProto
  let e1 := defineField e0 "_tag" (JSValue.vStr tag)
  let e2 := setField e1 "name" (JSValue.vStr tag)
  let e3 := match args with
    | some m => objectAssign e2 m
    | none => e2
  { e3 with proto := ProtoId.classProto cid }

/-- The class value returned by one factory call: the captured tag and
the allocation id of the freshly minted class. -/
structure TaggedErrorClass where
  tag : String
  classId : Nat
  deriving DecidableEq, Repr

/-- The factory `TaggedError(tag)`.  `freshId` makes the per-call class
allocation explicit: distinct calls receive distinct ids. -/
def TaggedError (tag : String) (freshId : Nat) : TaggedErrorClass :=
  ⟨tag, freshId⟩

/-- `new C(args?)` directly on a factory-returned class (checked). -/
def newVariantE (c : TaggedErrorClass) (args : Option (List (String × JSValue))) :
    Except String ErrorValue :=
  constructE c.tag c.classId (ProtoId.classProto c.classId) args

/-- `new C(args?)` directly on a factory-returned class (value form). -/
def newVariant (c : TaggedErrorClass) (args : Option (List (String × JSValue))) :
    ErrorValue :=
  construct c.tag c.classId (ProtoId.classProto c.classId) args

/-- `new S(args?)` where `class S extends C ...` is a user-written
subclass with allocation id `sid` of the factory-returned class `c`
(and an implicit constructor forwarding to `super`). -/
def newViaSubclass (c : TaggedErrorClass) (sid : Nat)
    (args : Option (List (String × JSValue))) : ErrorValue :=
  construct c.tag c.classId (ProtoId.subProto sid c.classId) args

/-- The own property of a value with a given key, if any. -/
def findProp (e : ErrorValue) (k : String) : Option JSProp :=
  e.props.find? (fun p => p.key = k)

/-- Own-property read: the stored value of an own property, if any. -/
def getOwn (e : ErrorValue) (k : String) : Option JSValue :=
  (findProp e k).map (fun p => p.val)

/-- The own-property keys of a value, in insertion order. -/
def ownKeys (e : ErrorValue) : List String :=
  e.props.map (fun p => p.key)

/-- Own properties of each prototype object, as far as the claims need
them: `Error.prototype` carries `name = "Error"` and `message = ""`;
a factory-made class prototype has no own data properties; a subclass
prototype carries whatever members the subclass author declared, given
by the environment `subMembers` keyed on the subclass allocation id. -/
def protoOwn (subMembers : Nat → List (String × JSValue)) : ProtoId → List (String × JSValue)
  | .errorProto => [("name", JSValue.vStr "Error"), ("message", JSValue.vStr "")]
  | .classProto _ => []
  | .subProto s _ => subMembers s

/-- Lookup of a key along a list of prototype objects, first hit wins. -/
def chainLookup (subMembers : Nat → List (String × JSValue)) :
    List ProtoId → String → Option JSValue
  | [], _ => none
  | p :: ps, k =>
    match (protoOwn subMembers p).find? (fun kv => kv.1 = k) with
    | some kv => some kv.2
    | none => chainLookup subMembers ps k

/-- Full property read `e.k`: own properties first, then the prototype
chain. -/
def getProp (subMembers : Nat → List (String × JSValue)) (e : ErrorValue)
    (k : String) : Option JSValue :=
  match getOwn e k with
  | some v => some v
  | none => chainLookup subMembers (chainOf e.proto) k

/-- Property read in a program with no subclasses in scope. -/
def getPropD (e : ErrorValue) (k : String) : Option JSValue :=
  getProp (fun _ => []) e k

/-- `e instanceof C` for a class whose prototype is `p`: does `p` occur
in the prototype chain of `e`? -/
def instanceOf (e : ErrorValue) (p : ProtoId) : Bool :=
  decide (p ∈ chainOf e.proto)

/-- The ambient fields every error value carries (identity, category
name, diagnostic message) — everything else own is payload. -/
def ambientKeys : List String := ["_tag", "name", "message"]

/-- A payload field of a value: an own property that is not part of the
ambient error surface. -/
def isPayloadField (e : ErrorValue) (k : String) : Bool :=
  decide (k ∈ ownKeys e) && !(decide (k ∈ ambientKeys))

/-- Raising a value with `throw`. -/
def throwValue (e : ErrorValue) : Except ErrorValue Unit :=
  .error e

/-- A generic `try ... catch (x) { ... }`: catches whatever value the
body throws, returning it; `none` when the body completes normally. -/
def catchGeneric (body : Except ErrorValue Unit) : Option ErrorValue :=
  match body with
  | .error e => some e
  | .ok _ => none

/-- The keys of an optional argument record. -/
def optKeys : Option (List (String × JSValue)) → List String
  | none => []
  | some m => m.map (fun kv => kv.1)

/-- Every own property of the value is a writable data property and the
value is extensible — the shape every object this library builds has at
every point of its life. -/
def AllWritable (e : ErrorValue) : Prop :=
  e.extensible = true ∧ ∀ p ∈ e.props, p.writable = true

/-! Helper lemmas: reading a property list after a write. -/

theorem find_setProps_self (ps : List JSProp) (k : String) (v : JSValue) :
    ((setProps ps k v).find? (fun p => p.key = k)).map (fun p => p.val) = some v := by
  induction ps with
  | nil => simp [setProps]
  | cons p ps ih =>
    by_cases h : p.key = k
    · simp [setProps, h]
    · simp [setProps, h, ih]

theorem find_setProps_ne (ps : List JSProp) (k' : String) (v : JSValue) (k : String)
    (h : k' ≠ k) :
    (setProps ps k' v).find? (fun p => p.key = k) = ps.find? (fun p => p.key = k) := by
  induction ps with
  | nil => simp [setProps, h]
  | cons p ps ih =>
    by_cases hp : p.key = k'
    · simp [setProps, hp, h, ih]
    · by_cases hk : p.key = k
      · simp [setProps, hp, hk, Ne.symm h]
      · simp [setProps, hp, hk, ih]

theorem find_defineProps_self (ps : List JSProp) (k : String) (v : JSValue) :
    (defineProps ps k v).find? (fun p => p.key = k) = some ⟨k, v, true⟩ := by
  induction ps with
  | nil => simp [defineProps]
  | cons p ps ih =>
    by_cases h : p.key = k
    · simp [defineProps, h]
    · simp [defineProps, h, ih]

theorem keys_setProps (ps : List JSProp) (k' : String) (v : JSValue) :
    (setProps ps k' v).map JSProp.key = ps.map JSProp.key ∨
    (setProps ps k' v).map JSProp.key = ps.map JSProp.key ++ [k'] := by
  induction ps with
  | nil => right; simp [setProps]
  | cons p ps ih =>
    by_cases hp : p.key = k'
    · left; simp [setProps, hp]
    · rcases ih with h | h
      · left; simp [setProps, hp, h]
      · right; simp [setProps, hp, h]

theorem mem_keys_setProps (ps : List JSProp) (k' : String) (v : JSValue) (k : String)
    (h : k ∈ (setProps ps k' v).map JSProp.key) :
    k ∈ ps.map JSProp.key ∨ k = k' := by
  rcases keys_setProps ps k' v with hk | hk
  · rw [hk] at h; exact Or.inl h
  · rw [hk] at h
    rcases List.mem_append.mp h with h2 | h2
    · exact Or.inl h2
    · exact Or.inr (by simpa using h2)

theorem writable_setProps (ps : List JSProp) (k : String) (v : JSValue)
    (hw : ∀ p ∈ ps, p.writable = true) :
    ∀ q ∈ setProps ps k v, q.writable = true := by
  induction ps with
  | nil => simp [setProps]
  | cons p ps ih =>
    by_cases h : p.key = k
    · intro q hq
      simp [setProps, h] at hq
      rcases hq with hq | hq
      · subst hq; exact hw p (by simp)
      · exact hw q (by simp [hq])
    · intro q hq
      simp [setProps, h] at hq
      rcases hq with hq | hq
      · subst hq; exact hw q (by simp)
      · exact ih (fun r hr => hw r (by simp [hr])) q hq

theorem writable_defineProps (ps : List JSProp) (k : String) (v : JSValue)
    (hw : ∀ p ∈ ps, p.writable = true) :
    ∀ q ∈ defineProps ps k v, q.writable = true := by
  induction ps with
  | nil => simp [defineProps]
  | cons p ps ih =>
    by_cases h : p.key = k
    · intro q hq
      simp [defineProps, h] at hq
      rcases hq with hq | hq
      · subst hq; rfl
      · exact hw q (by simp [hq])
    · intro q hq
      simp [defineProps, h] at hq
      rcases hq with hq | hq
      · subst hq; exact hw q (by simp)
      · exact ih (fun r hr => hw r (by simp [hr])) q hq

theorem setPropsE_eq (ps : List JSProp) (k : String) (v : JSValue)
    (hw : ∀ p ∈ ps, p.writable = true) :
    setPropsE true ps k v = .ok (setProps ps k v) := by
  induction ps with
  | nil => simp [setPropsE, setProps]
  | cons p ps ih =>
    by_cases h : p.key = k
    · simp [setPropsE, setProps, h, hw p (by simp)]
    · simp [setPropsE, setProps, h, ih (fun r hr => hw r (by simp [hr])), bind, Except.bind]

/-! Helper lemmas: lifted to error values. -/

theorem findProp_setField_ne (e : ErrorValue) (k' : String) (v : JSValue) (k : String)
    (h : k' ≠ k) : findProp (setField e k' v) k = findProp e k := by
  simpa [findProp, setField] using find_setProps_ne e.props k' v k h

theorem getOwn_setField_self (e : ErrorValue) (k : String) (v : JSValue) :
    getOwn (setField e k v) k = some v := by
  simpa [getOwn, findProp, setField] using find_setProps_self e.props k v

theorem setField_proto (e : ErrorValue) (k : String) (v : JSValue) :
    (setField e k v).proto = e.proto := rfl

theorem setField_extensible (e : ErrorValue) (k : String) (v : JSValue) :
    (setField e k v).extensible = e.extensible := rfl

theorem setField_AllWritable (e : ErrorValue) (k : String) (v : JSValue)
    (h : AllWritable e) : AllWritable (setField e k v) :=
  ⟨h.1, writable_setProps e.props k v h.2⟩

theorem defineField_AllWritable (e : ErrorValue) (k : String) (v : JSValue)
    (h : AllWritable e) : AllWritable (defineField e k v) :=
  ⟨h.1, writable_defineProps e.props k v h.2⟩

theorem setFieldE_eq (e : ErrorValue) (k : String) (v : JSValue)
    (h : AllWritable e) : setFieldE e k v = .ok (setField e k v) := by
  simp [setFieldE, setField, h.1, setPropsE_eq e.props k v h.2, bind, Except.bind]

theorem defineFieldE_eq (e : ErrorValue) (k : String) (v : JSValue)
    (h : e.extensible = true) : defineFieldE e k v = .ok (defineField e k v) := by
  simp [defineFieldE, defineField, h]

theorem setPrototypeOfE_eq (e : ErrorValue) (p : ProtoId)
    (h : e.extensible = true) : setPrototypeOfE e p = .ok { e with proto := p } := by
  obtain ⟨ps, pr, ex⟩ := e
  by_cases hp : pr = p
  · subst hp; simp [setPrototypeOfE]
  · simp only at h
    simp [setPrototypeOfE, hp, h]

theorem findProp_objectAssign_not_mem (m : List (String × JSValue)) (e : ErrorValue)
    (k : String) (h : k ∉ m.map Prod.fst) :
    findProp (objectAssign e m) k = findProp e k := by
  induction m generalizing e with
  | nil => rfl
  | cons kv rest ih =>
    simp only [List.map_cons, List.mem_cons, not_or] at h
    rw [objectAssign, List.foldl_cons]
    have := ih (setField e kv.1 kv.2) h.2
    rw [objectAssign] at this
    rw [this, findProp_setField_ne e kv.1 kv.2 k (fun hh => h.1 hh.symm)]

theorem getOwn_objectAssign_not_mem (m : List (String × JSValue)) (e : ErrorValue)
    (k : String) (h : k ∉ m.map Prod.fst) :
    getOwn (objectAssign e m) k = getOwn e k := by
  simp [getOwn, findProp_objectAssign_not_mem m e k h]

theorem getOwn_objectAssign_mem (m : List (String × JSValue)) (e : ErrorValue)
    (k : String) (v : JSValue) (hnd : (m.map Prod.fst).Nodup) (hm : (k, v) ∈ m) :
    getOwn (objectAssign e m) k = some v := by
  induction m generalizing e with
  | nil => cases hm
  | cons kv rest ih =>
    simp only [List.map_cons, List.nodup_cons] at hnd
    rw [objectAssign, List.foldl_cons]
    rcases List.mem_cons.mp hm with hh | hh
    · have hk1 : kv.1 = k := by rw [← hh]
      have hk2 : kv.2 = v := by rw [← hh]
      have hrest : k ∉ rest.map Prod.fst := by
        rw [← hk1]; exact hnd.1
      have hnm := getOwn_objectAssign_not_mem rest (setField e kv.1 kv.2) k hrest
      rw [objectAssign] at hnm
      rw [hnm, hk1, hk2, getOwn_setField_self]
    · exact ih (setField e kv.1 kv.2) hnd.2 hh

theorem objectAssign_proto (m : List (String × JSValue)) (e : ErrorValue) :
    (objectAssign e m).proto = e.proto := by
  induction m generalizing e with
  | nil => rfl
  | cons kv rest ih =>
    rw [objectAssign, List.foldl_cons]
    have := ih (setField e kv.1 kv.2)
    rw [objectAssign] at this
    rw [this, setField_proto]

theorem objectAssign_extensible (m : List (String × JSValue)) (e : ErrorValue) :
    (objectAssign e m).extensible = e.extensible := by
  induction m generalizing e with
  | nil => rfl
  | cons kv rest ih =>
    rw [objectAssign, List.foldl_cons]
    have := ih (setField e kv.1 kv.2)
    rw [objectAssign] at this
    rw [this, setField_extensible]

theorem objectAssign_AllWritable (m : List (String × JSValue)) (e : ErrorValue)
    (h : AllWritable e) : AllWritable (objectAssign e m) := by
  induction m generalizing e with
  | nil => exact h
  | cons kv rest ih =>
    rw [objectAssign, List.foldl_cons]
    have := ih (setField e kv.1 kv.2) (setField_AllWritable e kv.1 kv.2 h)
    rw [objectAssign] at this
    exact this

theorem objectAssignE_eq (m : List (String × JSValue)) (e : ErrorValue)
    (h : AllWritable e) : objectAssignE e m = .ok (objectAssign e m) := by
  induction m generalizing e with
  | nil => rfl
  | cons kv rest ih =>
    rw [objectAssignE, List.foldlM_cons, setFieldE_eq e kv.1 kv.2 h]
    rw [objectAssign, List.foldl_cons]
    have := ih (setField e kv.1 kv.2) (setField_AllWritable e kv.1 kv.2 h)
    rw [objectAssignE] at this
    rw [objectAssign] at this
    simpa [bind, Except.bind] using this

theorem mem_ownKeys_objectAssign (m : List (String × JSValue)) (e : ErrorValue)
    (k : String) (h : k ∈ ownKeys (objectAssign e m)) :
    k ∈ ownKeys e ∨ k ∈ m.map Prod.fst := by
  induction m generalizing e with
  | nil => exact Or.inl h
  | cons kv rest ih =>
    rw [objectAssign, List.foldl_cons] at h
    have hh := ih (setField e kv.1 kv.2) (by rw [objectAssign]; exact h)
    rcases hh with hh | hh
    · rcases mem_keys_setProps e.props kv.1 kv.2 k hh with h2 | h2
      · exact Or.inl h2
      · exact Or.inr (by simp [h2])
    · exact Or.inr (by simp [hh])

/-! Helper lemmas: the constructed value. -/

theorem construct_proto (tag : String) (cid : Nat) (ntp : ProtoId)
    (args : Option (List (String × JSValue))) :
    (construct tag cid ntp args).proto = ProtoId.classProto cid := rfl

theorem construct_none_eq (tag : String) (cid : Nat) (ntp : ProtoId) :
    construct tag cid ntp none =
      { props := [⟨"_tag", JSValue.vStr tag, true⟩, ⟨"name", JSValue.vStr tag, true⟩],
        proto := ProtoId.classProto cid, extensible := true } := by
  simp [construct, errorSuper, defineField, defineProps, setField, setProps]

theorem construct_some_eq (tag : String) (cid : Nat) (ntp : ProtoId)
    (m : List (String × JSValue)) :
    construct tag cid ntp (some m) =
      { objectAssign
          { props := [⟨"_tag", JSValue.vStr tag, true⟩, ⟨"name", JSValue.vStr tag, true⟩],
            proto := ntp, extensible := true } m
        with proto := ProtoId.classProto cid } := by
  simp [construct, errorSuper, defineField, defineProps, setField, setProps]

theorem findProp_proto_irrel (e : ErrorValue) (p : ProtoId) (k : String) :
    findProp { e with proto := p } k = findProp e k := rfl

theorem construct_AllWritable (tag : String) (cid : Nat) (ntp : ProtoId)
    (args : Option (List (String × JSValue))) :
    AllWritable (construct tag cid ntp args) := by
  cases args with
  | none =>
    rw [construct_none_eq]
    exact ⟨rfl, by intro p hp; simp at hp; rcases hp with hp | hp <;> simp [hp]⟩
  | some m =>
    have hbase : AllWritable
        { props := [⟨"_tag", JSValue.vStr tag, true⟩, ⟨"name", JSValue.vStr tag, true⟩],
          proto := ntp, extensible := true } :=
      ⟨rfl, by intro p hp; simp at hp; rcases hp with hp | hp <;> simp [hp]⟩
    have h3 := objectAssign_AllWritable m _ hbase
    rw [construct_some_eq]
    exact ⟨h3.1, fun p hp => h3.2 p hp⟩

theorem constructE_eq_construct (tag : String) (cid : Nat) (ntp : ProtoId)
    (args : Option (List (String × JSValue))) :
    constructE tag cid ntp args = .ok (construct tag cid ntp args) := by
  have h0 : AllWritable (errorSuper ntp) := ⟨rfl, by simp [errorSuper]⟩
  have h1 := defineField_AllWritable (errorSuper ntp) "_tag" (JSValue.vStr tag) h0
  have h2 := setField_AllWritable _ "name" (JSValue.vStr tag) h1
  cases args with
  | none =>
    simp [constructE, construct, bind, Except.bind, pure, Except.pure,
      defineFieldE_eq _ _ _ h0.1, setFieldE_eq _ _ _ h1,
      setPrototypeOfE_eq _ _ h2.1]
  | some m =>
    have h3 := objectAssign_AllWritable m _ h2
    simp [constructE, construct, bind, Except.bind,
      defineFieldE_eq _ _ _ h0.1, setFieldE_eq _ _ _ h1,
      objectAssignE_eq m _ h2, setPrototypeOfE_eq _ _ h3.1]

/-! Helper lemmas: property lookup through the prototype chain. -/

theorem chainLookup_classProto (sm : Nat → List (String × JSValue)) (cid : Nat)
    (k : String) :
    chainLookup sm [ProtoId.classProto cid, ProtoId.errorProto] k =
      if k = "name" then some (JSValue.vStr "Error")
      else if k = "message" then some (JSValue.vStr "") else none := by
  by_cases h1 : k = "name"
  · subst h1; simp [chainLookup, protoOwn]
  · by_cases h2 : k = "message"
    · subst h2; simp [chainLookup, protoOwn]
    · simp [chainLookup, protoOwn, h1, h2, Ne.symm h1, Ne.symm h2]

theorem getProp_of_getOwn (sm : Nat → List (String × JSValue)) (e : ErrorValue)
    (k : String) (v : JSValue) (h : getOwn e k = some v) :
    getProp sm e k = some v := by
  simp [getProp, h]

theorem getProp_of_getOwn_none (sm : Nat → List (String × JSValue)) (e : ErrorValue)
    (k : String) (h : getOwn e k = none) :
    getProp sm e k = chainLookup sm (chainOf e.proto) k := by
  simp [getProp, h]

/-! Helper lemmas: the own properties of a freshly constructed value. -/

theorem findProp_construct_not_mem (tag : String) (cid : Nat) (ntp : ProtoId)
    (args : Option (List (String × JSValue))) (k : String) (hk : k ∉ optKeys args) :
    findProp (construct tag cid ntp args) k =
      findProp
        { props := [⟨"_tag", JSValue.vStr tag, true⟩, ⟨"name", JSValue.vStr tag, true⟩],
          proto := ntp, extensible := true } k := by
  cases args with
  | none => rw [construct_none_eq]; rfl
  | some m =>
    rw [construct_some_eq, findProp_proto_irrel]
    exact findProp_objectAssign_not_mem m _ k (by simpa [optKeys] using hk)

theorem findProp_construct_tag (tag : String) (cid : Nat) (ntp : ProtoId)
    (args : Option (List (String × JSValue))) (hk : "_tag" ∉ optKeys args) :
    findProp (construct tag cid ntp args) "_tag" =
      some ⟨"_tag", JSValue.vStr tag, true⟩ := by
  rw [findProp_construct_not_mem tag cid ntp args "_tag" hk]
  simp [findProp]

theorem getOwn_construct_tag (tag : String) (cid : Nat) (ntp : ProtoId)
    (args : Option (List (String × JSValue))) (hk : "_tag" ∉ optKeys args) :
    getOwn (construct tag cid ntp args) "_tag" = some (JSValue.vStr tag) := by
  simp [getOwn, findProp_construct_tag tag cid ntp args hk]

theorem getOwn_construct_name (tag : String) (cid : Nat) (ntp : ProtoId)
    (args : Option (List (String × JSValue))) (hk : "name" ∉ optKeys args) :
    getOwn (construct tag cid ntp args) "name" = some (JSValue.vStr tag) := by
  rw [getOwn, findProp_construct_not_mem tag cid ntp args "name" hk]
  simp [findProp]

theorem getOwn_construct_message (tag : String) (cid : Nat) (ntp : ProtoId)
    (args : Option (List (String × JSValue))) (hk : "message" ∉ optKeys args) :
    getOwn (construct tag cid ntp args) "message" = none := by
  rw [getOwn, findProp_construct_not_mem tag cid ntp args "message" hk]
  simp [findProp]

theorem getOwn_construct_payload (tag : String) (cid : Nat) (ntp : ProtoId)
    (m : List (String × JSValue)) (k : String) (v : JSValue)
    (hnd : (m.map Prod.fst).Nodup) (hm : (k, v) ∈ m) :
    getOwn (construct tag cid ntp (some m)) k = some v := by
  rw [construct_some_eq]
  have := getOwn_objectAssign_mem m
    { props := [⟨"_tag", JSValue.vStr tag, true⟩, ⟨"name", JSValue.vStr tag, true⟩],
      proto := ntp, extensible := true } k v hnd hm
  simpa [getOwn, findProp_proto_irrel] using this

/-! Claim theorems. -/

/-- C4: for every label L, invoking the factory-returned constructor
with no payload mapping produces a value whose discriminant field
`_tag` equals L, whose category name `name` equals L, and which carries
no payload fields beyond the ambient error surface. -/
theorem C4_no_payload (tag : String) (cid : Nat) :
    getPropD (newVariant (TaggedError tag cid) none) "_tag" = some (JSValue.vStr tag) ∧
    getPropD (newVariant (TaggedError tag cid) none) "name" = some (JSValue.vStr tag) ∧
    ∀ k, isPayloadField (newVariant (TaggedError tag cid) none) k = false := by
  have e_eq : newVariant (TaggedError tag cid) none =
      { props := [⟨"_tag", JSValue.vStr tag, true⟩, ⟨"name", JSValue.vStr tag, true⟩],
        proto := ProtoId.classProto cid, extensible := true } :=
    construct_none_eq tag cid (ProtoId.classProto cid)
  rw [e_eq]
  refine ⟨?_, ?_, ?_⟩
  · simp [getPropD, getProp, getOwn, findProp]
  · simp [getPropD, getProp, getOwn, findProp]
  · intro k
    by_cases hk : k = "_tag"
    · simp [isPayloadField, ownKeys, ambientKeys, hk]
    · by_cases hn : k = "name"
      · simp [isPayloadField, ownKeys, ambientKeys, hn]
      · simp [isPayloadField, ownKeys, ambientKeys, hk, hn]

/-- C8: the factory and every constructor it returns are total — for
any string label, fresh class id, and any payload record (including
none), the checked constructor run hits none of its failure conditions
and produces the constructed value. -/
theorem C8_total (tag : String) (freshId : Nat)
    (args : Option (List (String × JSValue))) :
    newVariantE (TaggedError tag freshId) args =
      .ok (newVariant (TaggedError tag freshId) args) :=
  constructE_eq_construct tag freshId (ProtoId.classProto freshId) args

/-- C10: when the factory-returned class is extended by a subclass and
an instance is built through that subclass, the final
`Object.setPrototypeOf` re-parents the instance to the factory class's
own prototype: the instance fails `instanceof` against the subclass,
cannot reach any member defined on the subclass's prototype (property
lookup is exactly as if the subclass had no members), and only identity
against the factory-created class is preserved. -/
theorem C10_subclass (tag : String) (cid sid : Nat)
    (subMembers : Nat → List (String × JSValue))
    (args : Option (List (String × JSValue))) :
    (newViaSubclass (TaggedError tag cid) sid args).proto = ProtoId.classProto cid ∧
    instanceOf (newViaSubclass (TaggedError tag cid) sid args)
      (ProtoId.subProto sid cid) = false ∧
    instanceOf (newViaSubclass (TaggedError tag cid) sid args)
      (ProtoId.classProto cid) = true ∧
    ∀ k, getProp subMembers (newViaSubclass (TaggedError tag cid) sid args) k =
      getProp (fun _ => []) (newViaSubclass (TaggedError tag cid) sid args) k := by
  have hp : (newViaSubclass (TaggedError tag cid) sid args).proto = ProtoId.classProto cid :=
    construct_proto tag cid (ProtoId.subProto sid cid) args
  refine ⟨hp, ?_, ?_, ?_⟩
  · simp [instanceOf, hp, chainOf]
  · simp [instanceOf, hp, chainOf]
  · intro k
    cases hgo : getOwn (newViaSubclass (TaggedError tag cid) sid args) k with
    | some v =>
      rw [getProp_of_getOwn subMembers _ _ _ hgo, getProp_of_getOwn _ _ _ _ hgo]
    | none =>
      rw [getProp_of_getOwn_none subMembers _ _ hgo, getProp_of_getOwn_none _ _ _ hgo, hp]
      simp only [chainOf]
      rw [chainLookup_classProto, chainLookup_classProto]

/-- C3: for every label L and payload record M with distinct keys, the
produced value exposes, for every key k of M, a field k whose value is
exactly M's value (passed through unmodified), and exposes no payload
field whose name is not a key of M. -/
theorem C3_payload (tag : String) (cid : Nat) (m : List (String × JSValue))
    (hnd : (m.map Prod.fst).Nodup) :
    (∀ k v, (k, v) ∈ m →
      getPropD (newVariant (TaggedError tag cid) (some m)) k = some v) ∧
    (∀ k, k ∉ m.map Prod.fst →
      isPayloadField (newVariant (TaggedError tag cid) (some m)) k = false) := by
  constructor
  · intro k v hm
    exact getProp_of_getOwn _ _ _ _
      (getOwn_construct_payload tag cid (ProtoId.classProto cid) m k v hnd hm)
  · intro k hk
    by_cases ho : k ∈ ownKeys (newVariant (TaggedError tag cid) (some m))
    · have ho2 : k ∈ ownKeys (objectAssign
          { props := [⟨"_tag", JSValue.vStr tag, true⟩, ⟨"name", JSValue.vStr tag, true⟩],
            proto := ProtoId.classProto cid, extensible := true } m) := by
        have hcc := construct_some_eq tag cid (ProtoId.classProto cid) m
        rw [show newVariant (TaggedError tag cid) (some m) =
            construct tag cid (ProtoId.classProto cid) (some m) from rfl, hcc] at ho
        simpa [ownKeys] using ho
      rcases mem_ownKeys_objectAssign m _ k ho2 with hb | hb
      · have hbn : k = "_tag" ∨ k = "name" := by simpa [ownKeys] using hb
        rcases hbn with h | h <;> simp [isPayloadField, ambientKeys, h]
      · exact absurd hb hk
    · simp [isPayloadField, ho]

/-- Witness for C3 at the spec's concrete scenario: a NetworkError with
a status and an endpoint exposes both payload fields unchanged and no
other payload field. -/
theorem C3_payload_witness :
    getPropD (newVariant (TaggedError "NetworkError" 0)
      (some [("status", JSValue.vNum 500), ("endpoint", JSValue.vStr "/api/users")]))
      "status" = some (JSValue.vNum 500) ∧
    isPayloadField (newVariant (TaggedError "NetworkError" 0)
      (some [("status", JSValue.vNum 500), ("endpoint", JSValue.vStr "/api/users")]))
      "other" = false :=
  ⟨(C3_payload "NetworkError" 0
      [("status", JSValue.vNum 500), ("endpoint", JSValue.vStr "/api/users")]
      (by decide)).1 "status" (JSValue.vNum 500) (by decide),
   (C3_payload "NetworkError" 0
      [("status", JSValue.vNum 500), ("endpoint", JSValue.vStr "/api/users")]
      (by decide)).2 "other" (by decide)⟩

/-- C5: a payload key naming one of the ambient fields (`name`,
`message`, or the discriminant `_tag` itself) overwrites the
corresponding ambient field on that instance, and no guard rejects the
colliding key — the checked constructor run still succeeds. -/
theorem C5_collision (tag : String) (cid : Nat) (m : List (String × JSValue))
    (k : String) (v : JSValue) (hnd : (m.map Prod.fst).Nodup)
    (_hk : k ∈ ambientKeys) (hm : (k, v) ∈ m) :
    getPropD (newVariant (TaggedError tag cid) (some m)) k = some v ∧
    newVariantE (TaggedError tag cid) (some m) =
      .ok (newVariant (TaggedError tag cid) (some m)) :=
  ⟨getProp_of_getOwn _ _ _ _
      (getOwn_construct_payload tag cid (ProtoId.classProto cid) m k v hnd hm),
   constructE_eq_construct tag cid (ProtoId.classProto cid) (some m)⟩

/-- Witness for C5: a payload record whose `name` key overwrites the
category name on the produced instance, with construction succeeding. -/
theorem C5_collision_witness :
    getPropD (newVariant (TaggedError "E" 0)
      (some [("name", JSValue.vStr "overwritten")])) "name" =
      some (JSValue.vStr "overwritten") ∧
    newVariantE (TaggedError "E" 0) (some [("name", JSValue.vStr "overwritten")]) =
      .ok (newVariant (TaggedError "E" 0) (some [("name", JSValue.vStr "overwritten")])) :=
  C5_collision "E" 0 [("name", JSValue.vStr "overwritten")] "name"
    (JSValue.vStr "overwritten") (by decide) (by decide) (by decide)

/-- C7: two separate factory calls with the same label return two
independent constructors that are not mutually type-identical — an
instanceof check scoped to one class rejects every value produced by
the other — even though both values report the same discriminant. -/
theorem C7_independent (tag : String) (id1 id2 : Nat) (hid : id1 ≠ id2)
    (args1 args2 : Option (List (String × JSValue)))
    (h1 : "_tag" ∉ optKeys args1) (h2 : "_tag" ∉ optKeys args2) :
    TaggedError tag id1 ≠ TaggedError tag id2 ∧
    instanceOf (newVariant (TaggedError tag id1) args1) (ProtoId.classProto id2) = false ∧
    instanceOf (newVariant (TaggedError tag id2) args2) (ProtoId.classProto id1) = false ∧
    getPropD (newVariant (TaggedError tag id1) args1) "_tag" = some (JSValue.vStr tag) ∧
    getPropD (newVariant (TaggedError tag id2) args2) "_tag" = some (JSValue.vStr tag) := by
  have hp1 : (newVariant (TaggedError tag id1) args1).proto = ProtoId.classProto id1 :=
    construct_proto tag id1 (ProtoId.classProto id1) args1
  have hp2 : (newVariant (TaggedError tag id2) args2).proto = ProtoId.classProto id2 :=
    construct_proto tag id2 (ProtoId.classProto id2) args2
  refine ⟨?_, ?_, ?_, ?_, ?_⟩
  · intro h
    exact hid (congrArg TaggedErrorClass.classId h)
  · simp [instanceOf, hp1, chainOf, Ne.symm hid]
  · simp [instanceOf, hp2, chainOf, hid]
  · exact getProp_of_getOwn _ _ _ _ (getOwn_construct_tag tag id1 _ args1 h1)
  · exact getProp_of_getOwn _ _ _ _ (getOwn_construct_tag tag id2 _ args2 h2)

/-- Witness for C7: two NetworkError factories, each instantiated once;
each value fails instanceof against the other class. -/
theorem C7_independent_witness :
    TaggedError "NetworkError" 0 ≠ TaggedError "NetworkError" 1 ∧
    instanceOf (newVariant (TaggedError "NetworkError" 0) none) (ProtoId.classProto 1) = false ∧
    instanceOf (newVariant (TaggedError "NetworkError" 1) none) (ProtoId.classProto 0) = false ∧
    getPropD (newVariant (TaggedError "NetworkError" 0) none) "_tag" =
      some (JSValue.vStr "NetworkError") ∧
    getPropD (newVariant (TaggedError "NetworkError" 1) none) "_tag" =
      some (JSValue.vStr "NetworkError") :=
  C7_independent "NetworkError" 0 1 (by decide) none none (by decide) (by decide)

/-- C1 counterexample: the claim fails as stated — when the payload
record contains a key "_tag", the payload copy overwrites the
discriminant (the class-field initializer wrote it before the copy and
nothing fixes it read-only), so the produced value's discriminant is
the payload's value, not the label; the property is moreover still
writable. -/
theorem C1_counterexample :
    getPropD (newVariant (TaggedError "NetworkError" 0)
      (some [("_tag", JSValue.vStr "Smuggled")])) "_tag" =
      some (JSValue.vStr "Smuggled") ∧
    some (JSValue.vStr "Smuggled") ≠ some (JSValue.vStr "NetworkError") ∧
    findProp (newVariant (TaggedError "NetworkError" 0)
      (some [("_tag", JSValue.vStr "Smuggled")])) "_tag" =
      some ⟨"_tag", JSValue.vStr "Smuggled", true⟩ := by decide

/-- C1 (amended): for every label L, for an invocation with no payload
record or with one whose keys do not include "_tag", the discriminant
field is present and equals L; it is created by the class-field
initializer before the payload copy as an ordinary writable own data
property — TypeScript readonly is erased, no construction step fixes
it read-only, and a payload key "_tag" overwrites it. -/
theorem C1_discriminant (tag : String) (cid : Nat)
    (args : Option (List (String × JSValue))) (h : "_tag" ∉ optKeys args) :
    getPropD (newVariant (TaggedError tag cid) args) "_tag" = some (JSValue.vStr tag) ∧
    findProp (newVariant (TaggedError tag cid) args) "_tag" =
      some ⟨"_tag", JSValue.vStr tag, true⟩ :=
  ⟨getProp_of_getOwn _ _ _ _ (getOwn_construct_tag tag cid _ args h),
   findProp_construct_tag tag cid (ProtoId.classProto cid) args h⟩

/-- Witness for C1's amended statement at a concrete payload without a
"_tag" key. -/
theorem C1_discriminant_witness :
    getPropD (newVariant (TaggedError "NetworkError" 0)
      (some [("status", JSValue.vNum 500)])) "_tag" =
      some (JSValue.vStr "NetworkError") ∧
    findProp (newVariant (TaggedError "NetworkError" 0)
      (some [("status", JSValue.vNum 500)])) "_tag" =
      some ⟨"_tag", JSValue.vStr "NetworkError", true⟩ :=
  C1_discriminant "NetworkError" 0 (some [("status", JSValue.vNum 500)]) (by decide)

/-- C2 counterexample: fields are not immutable after construction —
the standard strict-mode assignment path on a produced value succeeds
(does not fail) and changes the stored value, both for the
discriminant and for a payload field. -/
theorem C2_counterexample :
    setFieldE (newVariant (TaggedError "E" 0) none) "_tag" (JSValue.vStr "mutated") =
      .ok (setField (newVariant (TaggedError "E" 0) none) "_tag" (JSValue.vStr "mutated")) ∧
    getPropD (newVariant (TaggedError "E" 0) none) "_tag" = some (JSValue.vStr "E") ∧
    getPropD (setField (newVariant (TaggedError "E" 0) none) "_tag" (JSValue.vStr "mutated"))
      "_tag" = some (JSValue.vStr "mutated") ∧
    setFieldE (newVariant (TaggedError "E" 0) (some [("status", JSValue.vNum 1)]))
      "status" (JSValue.vNum 2) =
      .ok (setField (newVariant (TaggedError "E" 0) (some [("status", JSValue.vNum 1)]))
        "status" (JSValue.vNum 2)) ∧
    getPropD (setField (newVariant (TaggedError "E" 0) (some [("status", JSValue.vNum 1)]))
      "status" (JSValue.vNum 2)) "status" = some (JSValue.vNum 2) :=
  ⟨rfl, by decide, by decide, rfl, by decide⟩

/-- C2 (amended): immutability of the discriminant and payload fields
is only a static TypeScript guarantee, erased at runtime — every own
field of a produced value is a writable data property, so reassignment
through the standard field-assignment path succeeds and changes the
stored value. -/
theorem C2_runtime_mutable (tag : String) (cid : Nat)
    (args : Option (List (String × JSValue))) (k : String) (v : JSValue) :
    setFieldE (newVariant (TaggedError tag cid) args) k v =
      .ok (setField (newVariant (TaggedError tag cid) args) k v) ∧
    getOwn (setField (newVariant (TaggedError tag cid) args) k v) k = some v :=
  ⟨setFieldE_eq _ k v (construct_AllWritable tag cid (ProtoId.classProto cid) args),
   getOwn_setField_self _ k v⟩

/-- C6 counterexample: the contract does not hold for every produced
value even with a non-empty label — a payload key "name" can overwrite
the category name with an empty string while the message is already
empty, so the value carries no non-empty diagnostic or category field. -/
theorem C6_counterexample :
    ("NetworkError" : String) ≠ "" ∧
    getPropD (newVariant (TaggedError "NetworkError" 0)
      (some [("name", JSValue.vStr "")])) "name" = some (JSValue.vStr "") ∧
    getPropD (newVariant (TaggedError "NetworkError" 0)
      (some [("name", JSValue.vStr "")])) "message" = some (JSValue.vStr "") := by decide

/-- C6 (amended): every produced value is an instance of the host's
base error type, can be raised and caught by a generic catch (the
caught value is the raised one), and passes instanceof against the
factory-created class that produced it; provided the payload does not
overwrite the "name" field, the category name equals the label, which
is non-empty for a non-empty label. -/
theorem C6_error_contract (tag : String) (cid : Nat)
    (args : Option (List (String × JSValue))) :
    instanceOf (newVariant (TaggedError tag cid) args) ProtoId.errorProto = true ∧
    catchGeneric (throwValue (newVariant (TaggedError tag cid) args)) =
      some (newVariant (TaggedError tag cid) args) ∧
    instanceOf (newVariant (TaggedError tag cid) args) (ProtoId.classProto cid) = true ∧
    ("name" ∉ optKeys args → tag ≠ "" →
      getPropD (newVariant (TaggedError tag cid) args) "name" = some (JSValue.vStr tag) ∧
      JSValue.vStr tag ≠ JSValue.vStr "") := by
  have hp : (newVariant (TaggedError tag cid) args).proto = ProtoId.classProto cid :=
    construct_proto tag cid (ProtoId.classProto cid) args
  refine ⟨?_, rfl, ?_, ?_⟩
  · simp [instanceOf, hp, chainOf]
  · simp [instanceOf, hp, chainOf]
  · intro hname htag
    refine ⟨getProp_of_getOwn _ _ _ _ (getOwn_construct_name tag cid _ args hname), ?_⟩
    simpa using htag

/-- Witness for C6's amended statement at the spec's concrete
scenario. -/
theorem C6_error_contract_witness :
    instanceOf (newVariant (TaggedError "NetworkError" 0)
      (some [("status", JSValue.vNum 500)])) ProtoId.errorProto = true ∧
    catchGeneric (throwValue (newVariant (TaggedError "NetworkError" 0)
      (some [("status", JSValue.vNum 500)]))) =
      some (newVariant (TaggedError "NetworkError" 0)
        (some [("status", JSValue.vNum 500)])) ∧
    instanceOf (newVariant (TaggedError "NetworkError" 0)
      (some [("status", JSValue.vNum 500)])) (ProtoId.classProto 0) = true ∧
    getPropD (newVariant (TaggedError "NetworkError" 0)
      (some [("status", JSValue.vNum 500)])) "name" =
      some (JSValue.vStr "NetworkError") ∧
    JSValue.vStr "NetworkError" ≠ JSValue.vStr "" :=
  ⟨(C6_error_contract "NetworkError" 0 (some [("status", JSValue.vNum 500)])).1,
   (C6_error_contract "NetworkError" 0 (some [("status", JSValue.vNum 500)])).2.1,
   (C6_error_contract "NetworkError" 0 (some [("status", JSValue.vNum 500)])).2.2.1,
   ((C6_error_contract "NetworkError" 0 (some [("status", JSValue.vNum 500)])).2.2.2
      (by decide) (by decide)).1,
   ((C6_error_contract "NetworkError" 0 (some [("status", JSValue.vNum 500)])).2.2.2
      (by decide) (by decide)).2⟩

/-- C9 counterexample: the claim fails as stated — for a payload
without a "message" key the message is indeed empty, but the claim's
clause that the category name is set to the label fails when the
payload contains a "name" key, which overwrites the category name. -/
theorem C9_counterexample :
    "message" ∉ optKeys (some [("name", JSValue.vStr "x")]) ∧
    getPropD (newVariant (TaggedError "E" 0)
      (some [("name", JSValue.vStr "x")])) "message" = some (JSValue.vStr "") ∧
    getPropD (newVariant (TaggedError "E" 0)
      (some [("name", JSValue.vStr "x")])) "name" = some (JSValue.vStr "x") ∧
    some (JSValue.vStr "x") ≠ some (JSValue.vStr "E") := by decide

/-- C9 (amended): for every label L and every invocation whose payload
lacks a "message" key, the produced value's message is the empty
string — super() is called with no message argument, so the empty
message is inherited from the error prototype; and when the payload
also lacks a "name" key, the category name equals L. -/
theorem C9_empty_message (tag : String) (cid : Nat)
    (args : Option (List (String × JSValue))) (hmsg : "message" ∉ optKeys args) :
    getPropD (newVariant (TaggedError tag cid) args) "message" = some (JSValue.vStr "") ∧
    ("name" ∉ optKeys args →
      getPropD (newVariant (TaggedError tag cid) args) "name" = some (JSValue.vStr tag)) := by
  have hp : (newVariant (TaggedError tag cid) args).proto = ProtoId.classProto cid :=
    construct_proto tag cid (ProtoId.classProto cid) args
  constructor
  · have hn := getOwn_construct_message tag cid (ProtoId.classProto cid) args hmsg
    have hcl := getProp_of_getOwn_none (fun _ => [])
      (newVariant (TaggedError tag cid) args) "message" hn
    show getProp (fun _ => []) (newVariant (TaggedError tag cid) args) "message" =
      some (JSValue.vStr "")
    rw [hcl, hp]
    simp only [chainOf]
    rw [chainLookup_classProto]
    simp
  · intro hname
    exact getProp_of_getOwn _ _ _ _ (getOwn_construct_name tag cid _ args hname)

/-- Witness for C9's amended statement at a concrete payload without
"message" and "name" keys. -/
theorem C9_empty_message_witness :
    getPropD (newVariant (TaggedError "InvalidEndpoint" 0) none) "message" =
      some (JSValue.vStr "") ∧
    getPropD (newVariant (TaggedError "InvalidEndpoint" 0) none) "name" =
      some (JSValue.vStr "InvalidEndpoint") :=
  ⟨(C9_empty_message "InvalidEndpoint" 0 none (by decide)).1,
   (C9_empty_message "InvalidEndpoint" 0 none (by decide)).2 (by decide)⟩
